import Mathlib

/-!
Verification of the TradeSync backend core against its specification.

This file gives a shallow embedding, in Lean 4, of the parts of the
TradeSync server that the checked properties talk about:

* `DataProcessor` (message validator/batcher) from
  `src/backend/server/src/utils/data-processor.ts`;
* `ErrorHandler` (reconnection coordinator) from
  `src/backend/server/src/utils/error-handler.ts`;
* `OrderMonitor.reconnect` from
  `src/backend/server/src/services/executor/order-monitor.ts`;
* `OrderValidator.validateOrder` from the executor's order validator;
* `ExecutorService.processOrder` / `handleOrderFailed` from
  `src/backend/server/src/services/executor/executor-service.ts`.

JavaScript numbers are modelled as rationals (`ℚ`): every numeric literal
appearing in the code and in the proofs (prices, volumes, delays, the
backoff factor 1.5 = 3/2) is exactly representable in binary floating
point at the magnitudes involved, so rational arithmetic agrees with the
program's arithmetic on all inputs considered here.  JavaScript
truthiness on optional numeric fields (`undefined` and `0` are falsy) is
modelled by `numTruthy` on `Option ℚ`; truthiness of strings (only `""`
is falsy) by comparison with `""`.  Timers and wall-clock timestamps are
not modelled; the order of the induced callbacks is made explicit in the
state-passing definitions.
-/

namespace TradeSync

/-! ## Message validator/batcher (`data-processor.ts`)

The `DataProcessor` keeps an in-memory queue of typed market messages.
`addMessage` first applies the drop-oldest overflow policy, then
validates the message against configured bounds and pushes it if valid.
`processMessages` (and the periodic `processBatch`, which has the same
body) splices up to `maxBatchSize` entries off the front and hands them
to the `onBatch` sink; if the sink throws, the batch is pushed back on
the front of the queue. -/

structure BatchConfig where
  maxBatchSize : ℕ
  maxQueueSize : ℕ
  deriving Repr, DecidableEq

structure ValidationConfig where
  maxPrice : ℚ
  maxVolume : ℚ
  maxSpread : ℚ
  minPrice : ℚ
  minVolume : ℚ
  deriving Repr, DecidableEq

/-- Normalized quote (`MarketData` in `types/alpaca.ts`). -/
structure MarketData where
  symbol : String
  bidPrice : ℚ
  askPrice : ℚ
  timestamp : String
  midPrice : ℚ
  spread : ℚ
  deriving Repr, DecidableEq

structure Trade where
  symbol : String
  price : ℚ
  size : ℚ
  timestamp : String
  deriving Repr, DecidableEq

/-- Normalized bar; the source field `open` is a Lean keyword and is
rendered here as `open_`. -/
structure Bar where
  symbol : String
  open_ : ℚ
  high : ℚ
  low : ℚ
  close : ℚ
  volume : ℚ
  timestamp : String
  deriving Repr, DecidableEq

/-- A queued message: the `type` tag together with the matching payload
(the TS code stores the pair `{ type, data }` and dispatches validation
on the tag). -/
inductive Msg
  | quote (q : MarketData)
  | trade (t : Trade)
  | bar (b : Bar)
  deriving Repr, DecidableEq

/-- `DataProcessor.validateQuote`: symbol/timestamp truthy, bid and ask
within `[minPrice, maxPrice]`, spread at most `maxSpread`. -/
def validateQuote (v : ValidationConfig) (q : MarketData) : Bool :=
  if q.symbol = "" ∨ q.timestamp = "" then false
  else if q.bidPrice < v.minPrice ∨ q.bidPrice > v.maxPrice then false
  else if q.askPrice < v.minPrice ∨ q.askPrice > v.maxPrice then false
  else if q.spread > v.maxSpread then false
  else true

/-- `DataProcessor.validateTrade`. -/
def validateTrade (v : ValidationConfig) (t : Trade) : Bool :=
  if t.symbol = "" ∨ t.timestamp = "" then false
  else if t.price < v.minPrice ∨ t.price > v.maxPrice then false
  else if t.size < v.minVolume ∨ t.size > v.maxVolume then false
  else true

/-- `DataProcessor.validateBar`: the source checks each of
open/high/low/close against the price range and volume against the
volume range, and nothing else. -/
def validateBar (v : ValidationConfig) (b : Bar) : Bool :=
  if b.symbol = "" ∨ b.timestamp = "" then false
  else if b.open_ < v.minPrice ∨ b.open_ > v.maxPrice then false
  else if b.high < v.minPrice ∨ b.high > v.maxPrice then false
  else if b.low < v.minPrice ∨ b.low > v.maxPrice then false
  else if b.close < v.minPrice ∨ b.close > v.maxPrice then false
  else if b.volume < v.minVolume ∨ b.volume > v.maxVolume then false
  else true

/-- `DataProcessor.validateMessage`, dispatching on the message tag. -/
def validateMessage (v : ValidationConfig) : Msg → Bool
  | .quote q => validateQuote v q
  | .trade t => validateTrade v t
  | .bar b => validateBar v b

/-- The overflow step of `addMessage`:
`if (length >= maxQueueSize) queue = queue.slice(-maxQueueSize)`.
JavaScript `slice(-n)` keeps the last `n` entries when `n ≥ 1`, but
`slice(-0)` is `slice(0)` and keeps the whole array, so for
`maxQueueSize = 0` nothing is dropped. -/
def trimQueue (cfg : BatchConfig) (queue : List Msg) : List Msg :=
  if queue.length ≥ cfg.maxQueueSize then
    if cfg.maxQueueSize = 0 then queue
    else queue.drop (queue.length - cfg.maxQueueSize)
  else queue

/-- `DataProcessor.addMessage`: apply the overflow policy first, then
validate and, if valid, push. -/
def addMessage (cfg : BatchConfig) (v : ValidationConfig) (queue : List Msg) (m : Msg) :
    List Msg :=
  if validateMessage v m then trimQueue cfg queue ++ [m] else trimQueue cfg queue

/-- `DataProcessor.processMessages` (and the identical periodic
`processBatch`): returns the batch handed to the `onBatch` sink together
with the queue afterwards.  `deliverOk = false` models the sink throwing,
in which case the spliced batch is unshifted back onto the front. -/
def processMessages (cfg : BatchConfig) (queue : List Msg) (deliverOk : Bool) :
    List Msg × List Msg :=
  if queue.length = 0 then ([], queue)
  else
    let batchSize := min queue.length cfg.maxBatchSize
    let batch := queue.take batchSize
    if deliverOk then (batch, queue.drop batchSize)
    else (batch, queue)

/-- One externally visible operation on the batcher. -/
inductive BatcherOp
  | add (m : Msg)
  | drain (deliverOk : Bool)
  deriving Repr, DecidableEq

/-- Run a sequence of operations from a given queue, collecting every
batch that was handed to the sink (a drain of an empty queue contributes
the empty batch; the sink is not invoked there).  Returns the final
queue and the list of batches. -/
def runBatcher (cfg : BatchConfig) (v : ValidationConfig) :
    List BatcherOp → List Msg → List Msg × List (List Msg)
  | [], queue => (queue, [])
  | .add m :: ops, queue => runBatcher cfg v ops (addMessage cfg v queue m)
  | .drain ok :: ops, queue =>
    let step := processMessages cfg queue ok
    let rest := runBatcher cfg v ops step.2
    (rest.1, step.1 :: rest.2)

/-! ## Reconnection coordinator (`error-handler.ts`)

Both `handleError` and `handleDisconnect` end in `scheduleReconnect`.
The coordinator's only relevant state is the attempt counter (the pending
timer only affects when the `reconnect` event fires, not which events are
emitted).  `scheduleReconnect` increments the counter before computing
the delay, so the `k`-th scheduling (1-based) waits
`min(reconnectDelay * 2^k, maxReconnectDelay)`; once the counter has
reached `maxReconnectAttempts` every further call emits the
`maxReconnectAttemptsReached` signal instead. -/

structure ReconnectConfig where
  maxReconnectAttempts : ℕ
  reconnectDelay : ℚ
  maxReconnectDelay : ℚ
  deriving Repr, DecidableEq

/-- What one call to `ErrorHandler.scheduleReconnect` emits. -/
inductive ReconnectOutput
  | scheduled (delay : ℚ)
  | gaveUp
  deriving Repr, DecidableEq

/-- `ErrorHandler.scheduleReconnect`: new attempt counter and emitted
signal. -/
def scheduleReconnect (cfg : ReconnectConfig) (attempts : ℕ) : ℕ × ReconnectOutput :=
  if attempts < cfg.maxReconnectAttempts then
    let a := attempts + 1
    (a, .scheduled (min (cfg.reconnectDelay * 2 ^ a) cfg.maxReconnectDelay))
  else
    (attempts, .gaveUp)

/-- Feed `n` consecutive error/disconnect events (no intervening
successful connect, so no counter reset) to a coordinator whose counter
is `attempts`; list the emitted signals in order. -/
def runReconnects (cfg : ReconnectConfig) (attempts : ℕ) : ℕ → List ReconnectOutput
  | 0 => []
  | n + 1 =>
    let step := scheduleReconnect cfg attempts
    step.2 :: runReconnects cfg step.1 n

/-- The scheduled delays of a signal trace, in order. -/
def delaysOf (outs : List ReconnectOutput) : List ℚ :=
  outs.filterMap fun o =>
    match o with
    | .scheduled d => some d
    | .gaveUp => none

/-- How often the `maxReconnectAttemptsReached` signal occurs in a trace. -/
def giveUpCount (outs : List ReconnectOutput) : ℕ :=
  (outs.filter fun o =>
    match o with
    | .scheduled _ => false
    | .gaveUp => true).length

/-- The coordinator's attempt counter after `n` consecutive events,
starting from `0`. -/
def coordAttemptsAfter (cfg : ReconnectConfig) : ℕ → ℕ
  | 0 => 0
  | n + 1 => (scheduleReconnect cfg (coordAttemptsAfter cfg n)).1

/-- The delay the coordinator schedules in reaction to the `n`-th
(0-based) consecutive event, `none` once it has given up. -/
def coordDelayAt (cfg : ReconnectConfig) (n : ℕ) : Option ℚ :=
  match (scheduleReconnect cfg (coordAttemptsAfter cfg n)).2 with
  | .scheduled d => some d
  | .gaveUp => none

/-! ## Order monitor reconnect (`order-monitor.ts`)

`OrderMonitor.reconnect` runs on every socket close.  It gives up
silently once `reconnectAttempts` has reached `maxReconnectAttempts`
(hard-coded 10); otherwise it increments the counter and schedules a
`connect` after `reconnectInterval * Math.pow(1.5, reconnectAttempts - 1)`
milliseconds with `reconnectInterval` hard-coded to 1000.  The factor
1.5 and its relevant powers are exact in binary floating point, so `ℚ`
arithmetic with `3/2` is faithful. -/

def monitorMaxReconnectAttempts : ℕ := 10

def monitorReconnectInterval : ℚ := 1000

/-- `OrderMonitor.reconnect`: new attempt counter and the scheduled
delay (`none` when it gives up without scheduling anything). -/
def monitorReconnect (attempts : ℕ) : ℕ × Option ℚ :=
  if attempts ≥ monitorMaxReconnectAttempts then (attempts, none)
  else
    let a := attempts + 1
    (a, some (monitorReconnectInterval * (3 / 2 : ℚ) ^ (a - 1)))

/-- The monitor's attempt counter after `n` consecutive close events
with no successful reopen in between (`handleOpen` is what resets the
counter). -/
def monitorAttemptsAfter : ℕ → ℕ
  | 0 => 0
  | n + 1 => (monitorReconnect (monitorAttemptsAfter n)).1

/-- The delay the monitor schedules in reaction to the `n`-th (0-based)
consecutive close event, `none` once it has given up. -/
def monitorDelayAt (n : ℕ) : Option ℚ :=
  (monitorReconnect (monitorAttemptsAfter n)).2

/-! ## Order validator (`order-validator.ts`)

`validateOrder` first accumulates the structural errors in source order.
If any accumulated, it returns them; otherwise it fetches the account,
rejects inactive accounts, rejects buy orders whose estimated value
exceeds the reported buying power, and finally mirrors the outcome of
the validating POST to the brokerage.  The three network interactions
(account fetch, latest-quote fetch, validating POST) are modelled by a
`ValidationEnv` holding their results; all failure paths of the
surrounding `try` collapse into the `AlpacaPostOutcome` cases exactly as
the `catch` block distinguishes them. -/

inductive OrderSide
  | buy
  | sell
  deriving Repr, DecidableEq

inductive OrderType
  | market
  | limit
  | stop
  | stop_limit
  deriving Repr, DecidableEq

inductive TimeInForce
  | day
  | gtc
  | ioc
  | fok
  deriving Repr, DecidableEq

inductive OrderClass
  | simple
  | bracket
  | oco
  | oto
  deriving Repr, DecidableEq

structure TakeProfit where
  limit_price : ℚ
  deriving Repr, DecidableEq

structure StopLoss where
  stop_price : ℚ
  limit_price : Option ℚ
  deriving Repr, DecidableEq

/-- `ExecutorOrderRequest` (`types/executor-order.ts`).  The enum-typed
required fields are wrapped in `Option` because the validator defends
against them being absent at runtime (`!order.side` and friends); the
TradeSync-specific metadata fields do not influence any modelled code
path and are omitted. -/
structure ExecutorOrderRequest where
  symbol : String
  qty : Option ℚ
  notional : Option ℚ
  side : Option OrderSide
  type : Option OrderType
  time_in_force : Option TimeInForce
  limit_price : Option ℚ
  stop_price : Option ℚ
  extended_hours : Bool
  client_order_id : Option String
  order_class : Option OrderClass
  take_profit : Option TakeProfit
  stop_loss : Option StopLoss
  deriving Repr, DecidableEq

/-- JavaScript truthiness of an optional numeric field: `undefined` and
`0` are falsy, every other number is truthy. -/
def numTruthy : Option ℚ → Bool
  | none => false
  | some x => x ≠ 0

structure ValidationResult where
  valid : Bool
  errors : List String
  deriving Repr, DecidableEq

/-- The structural (pre-network) checks of `validateOrder`, pushing
error strings in source order. -/
def structuralErrors (o : ExecutorOrderRequest) : List String :=
  (if o.symbol = "" then ["Symbol is required"] else []) ++
  (if o.side = none then ["Side is required"] else []) ++
  (if o.type = none then ["Type is required"] else []) ++
  (if o.time_in_force = none then ["Time in force is required"] else []) ++
  (if numTruthy o.qty = true ∧ numTruthy o.notional = true then
    ["Cannot specify both quantity and notional"]
  else if numTruthy o.qty = false ∧ numTruthy o.notional = false then
    ["Either quantity or notional must be specified"]
  else []) ++
  (if o.type = some .limit ∧ numTruthy o.limit_price = false then
    ["Limit price is required for limit orders"] else []) ++
  (if o.type = some .stop ∧ numTruthy o.stop_price = false then
    ["Stop price is required for stop orders"] else []) ++
  (if o.type = some .stop_limit ∧ numTruthy o.stop_price = false then
    ["Stop price is required for stop limit orders"] else []) ++
  (if o.type = some .stop_limit ∧ numTruthy o.limit_price = false then
    ["Limit price is required for stop limit orders"] else []) ++
  (if o.order_class = some .bracket ∧ o.take_profit = none then
    ["Take profit is required for bracket orders"] else []) ++
  (if o.order_class = some .bracket ∧ o.stop_loss = none then
    ["Stop loss is required for bracket orders"] else [])

structure AccountInfo where
  status : String
  buying_power : ℚ
  deriving Repr, DecidableEq

/-- Outcome of the validating `POST /v2/orders` (the tail of
`validateOrder`'s `try` block together with its `catch`):
success, a 403, a brokerage rejection carrying a message, or any other
exception. -/
inductive AlpacaPostOutcome
  | accepted
  | authFailed
  | rejected (msg : String)
  | errored
  deriving Repr, DecidableEq

/-- Results of the validator's network interactions. -/
structure ValidationEnv where
  account : AccountInfo
  currentPrice : ℚ
  post : AlpacaPostOutcome
  deriving Repr, DecidableEq

/-- The estimated order value
`order.notional || (order.qty ? order.qty * currentPrice : 0)`,
where `currentPrice` is the latest ask returned by the quote endpoint. -/
def orderValue (env : ValidationEnv) (o : ExecutorOrderRequest) : ℚ :=
  if numTruthy o.notional then o.notional.getD 0
  else if numTruthy o.qty then o.qty.getD 0 * env.currentPrice
  else 0

/-- Models `toFixed(2)`; no proved property depends on the rendered
digits, only on the message text around them. -/
def toFixed2 (q : ℚ) : String :=
  toString q

/-- The insufficient-buying-power message template. -/
def insufficientMessage (required available : ℚ) : String :=
  "Insufficient buying power. Required: $" ++ toFixed2 required ++
    ", Available: $" ++ toFixed2 available

/-- `OrderValidator.validateOrder`. -/
def validateOrder (env : ValidationEnv) (o : ExecutorOrderRequest) : ValidationResult :=
  let errors := structuralErrors o
  if 0 < errors.length then ⟨false, errors⟩
  else if env.account.status ≠ "ACTIVE" then
    ⟨false, ["Account is not active. Current status: " ++ env.account.status]⟩
  else if o.side = some .buy ∧ orderValue env o > env.account.buying_power then
    ⟨false, [insufficientMessage (orderValue env o) env.account.buying_power]⟩
  else
    match env.post with
    | .accepted => ⟨true, []⟩
    | .authFailed =>
      ⟨false, ["Authentication failed: Please check your Alpaca API credentials"]⟩
    | .rejected msg => ⟨false, ["Validation error: " ++ msg]⟩
    | .errored => ⟨false, ["Validation error: An unexpected error occurred"]⟩

/-! ## Executor (`executor-service.ts`)

`processQueue` dequeues at most one order per tick and runs
`processOrder` on it to completion before clearing the busy flag, so a
processing pass is sequential and can be modelled as a function of the
dequeued record.  A pass: set `validating`, call the validator; on
invalid, settle `failed` with the joined error list and stop.  On valid,
set `submitting`, increment `execution_attempts`, call
`OrderSubmitter.submitOrder`.  The submitter either emits
`order_submitted` (handled by `handleOrderSubmitted`: record the
brokerage id, move to `monitoring`) or emits `order_failed` and
re-throws.  In the failure case two continuations touch the shared
record: the `order_failed` listener (`handleOrderFailed`: re-enqueue
with `retrying` while `execution_attempts < 3`, otherwise settle
`failed`) and `processOrder`'s own `catch` block (write `failed` plus
the thrown message).  The listener's promise continuations were queued
first, so its effects land first and the `catch` block's writes land
last; the requeue decision is unaffected by this ordering. -/

inductive OrderExecutionStatus
  | pending
  | validating
  | submitting
  | submitted
  | monitoring
  | completed
  | failed
  | retrying
  deriving Repr, DecidableEq

/-- `ExecutorOrderState` (`types/executor-order.ts`); the wall-clock
`created_at`/`updated_at` fields and the raw `order_response` are not
modelled. -/
structure ExecutorOrderState where
  id : String
  client_order_id : String
  alpaca_order_id : Option String
  request : ExecutorOrderRequest
  status : OrderExecutionStatus
  execution_attempts : ℕ
  last_error : Option String
  deriving Repr, DecidableEq

/-- The record `ExecutorService.submitOrder` persists and enqueues
(ids are generated by `uuidv4`; they are parameters here). -/
def initialRecord (id clientOrderId : String) (req : ExecutorOrderRequest) :
    ExecutorOrderState :=
  { id := id
    client_order_id := clientOrderId
    alpaca_order_id := none
    request := req
    status := .pending
    execution_attempts := 0
    last_error := none }

/-- What one call of `OrderSubmitter.submitOrder` does from the
executor's point of view: emit `order_submitted` with the brokerage
response, or emit `order_failed` with a message and throw. -/
inductive SubmitOutcome
  | accepted (brokerId : String)
  | failed (msg : String)
  deriving Repr, DecidableEq

/-- The `last_error` written when validation fails:
`Validation failed: ${errors.join(', ')}`. -/
def validationFailureMessage (errors : List String) : String :=
  "Validation failed: " ++ String.intercalate ", " errors

/-- `ExecutorService.handleOrderFailed` on the record it looks up:
returns the updated record and whether it was pushed back onto the
queue. -/
def handleOrderFailed (errMsg : String) (rec : ExecutorOrderState) :
    ExecutorOrderState × Bool :=
  if rec.execution_attempts < 3 then
    ({ rec with status := .retrying, last_error := some errMsg }, true)
  else
    ({ rec with status := .failed, last_error := some errMsg }, false)

/-- Result of one `processOrder` pass, with the callback effects that
the pass triggers folded in. -/
structure PassResult where
  record : ExecutorOrderState
  submitterCalled : Bool
  requeued : Bool
  deriving Repr, DecidableEq

/-- One `ExecutorService.processOrder` pass on a dequeued record.  The
`submit` argument is what the submitter does if it is reached at all. -/
def processOrderPass (env : ValidationEnv) (submit : SubmitOutcome)
    (rec0 : ExecutorOrderState) : PassResult :=
  let rec1 := { rec0 with status := .validating }
  let vr := validateOrder env rec1.request
  if vr.valid then
    let rec2 := { rec1 with
      status := .submitting
      execution_attempts := rec1.execution_attempts + 1 }
    match submit with
    | .accepted brokerId =>
      -- order_submitted path: handleOrderSubmitted records the id and
      -- starts monitoring
      { record := { rec2 with status := .monitoring, alpaca_order_id := some brokerId }
        submitterCalled := true
        requeued := false }
    | .failed msg =>
      -- order_failed path: the listener runs handleOrderFailed, then
      -- processOrder's catch block writes the re-thrown message
      let afterListener := handleOrderFailed msg rec2
      { record := { afterListener.1 with
          status := .failed
          last_error := some ("Failed to submit order: " ++ msg) }
        submitterCalled := true
        requeued := afterListener.2 }
  else
    { record := { rec1 with
        status := .failed
        last_error := some (validationFailureMessage vr.errors) }
      submitterCalled := false
      requeued := false }

/-- Drive the executor's tick loop on a single order whose submission
fails with `errMsg` on every attempt: run passes while the order keeps
being re-enqueued.  Returns the settled record and how many times
`OrderSubmitter.submitOrder` was called.  `fuel` bounds the number of
ticks considered. -/
def driveQueue (env : ValidationEnv) (errMsg : String) :
    ExecutorOrderState → ℕ → ExecutorOrderState × ℕ
  | rec, 0 => (rec, 0)
  | rec, fuel + 1 =>
    let pass := processOrderPass env (.failed errMsg) rec
    let calls := if pass.submitterCalled then 1 else 0
    if pass.requeued then
      let rest := driveQueue env errMsg pass.record fuel
      (rest.1, calls + rest.2)
    else
      (pass.record, calls)

/-! ## Batcher lemmas and properties -/

lemma trimQueue_subset (cfg : BatchConfig) (q : List Msg) :
    ∀ x ∈ trimQueue cfg q, x ∈ q := by
  intro x hx
  unfold trimQueue at hx
  split at hx
  · split at hx
    · exact hx
    · exact List.mem_of_mem_drop hx
  · exact hx

lemma trimQueue_length_le (cfg : BatchConfig) (q : List Msg)
    (h1 : 1 ≤ cfg.maxQueueSize) (hq : q.length ≤ cfg.maxQueueSize + 1) :
    (trimQueue cfg q).length ≤ cfg.maxQueueSize := by
  unfold trimQueue
  split
  · rw [if_neg (by omega)]
    rw [List.length_drop]
    omega
  · next h => omega

lemma addMessage_length_le (cfg : BatchConfig) (v : ValidationConfig) (q : List Msg) (m : Msg)
    (h1 : 1 ≤ cfg.maxQueueSize) (hq : q.length ≤ cfg.maxQueueSize + 1) :
    (addMessage cfg v q m).length ≤ cfg.maxQueueSize + 1 := by
  unfold addMessage
  have ht := trimQueue_length_le cfg q h1 hq
  split
  · rw [List.length_append]
    simpa using ht
  · omega

lemma foldl_addMessage_length_le (cfg : BatchConfig) (v : ValidationConfig)
    (h1 : 1 ≤ cfg.maxQueueSize) :
    ∀ (msgs : List Msg) (q : List Msg), q.length ≤ cfg.maxQueueSize + 1 →
      (msgs.foldl (addMessage cfg v) q).length ≤ cfg.maxQueueSize + 1 := by
  intro msgs
  induction msgs with
  | nil => intro q hq; simpa using hq
  | cons m msgs ih =>
    intro q hq
    exact ih (addMessage cfg v q m) (addMessage_length_le cfg v q m h1 hq)

lemma addMessage_valid_preserved (cfg : BatchConfig) (v : ValidationConfig)
    (q : List Msg) (m : Msg) (hq : ∀ x ∈ q, validateMessage v x = true) :
    ∀ x ∈ addMessage cfg v q m, validateMessage v x = true := by
  intro x hx
  unfold addMessage at hx
  by_cases hm : validateMessage v m = true
  · rw [if_pos hm] at hx
    rcases List.mem_append.mp hx with h | h
    · exact hq x (trimQueue_subset cfg q x h)
    · rw [List.mem_singleton.mp h]; exact hm
  · rw [if_neg hm] at hx
    exact hq x (trimQueue_subset cfg q x hx)

lemma processMessages_fst_subset (cfg : BatchConfig) (q : List Msg) (ok : Bool) :
    ∀ x ∈ (processMessages cfg q ok).1, x ∈ q := by
  intro x hx
  unfold processMessages at hx
  split at hx
  · simp at hx
  · split at hx
    · exact List.mem_of_mem_take hx
    · exact List.mem_of_mem_take hx

lemma processMessages_snd_subset (cfg : BatchConfig) (q : List Msg) (ok : Bool) :
    ∀ x ∈ (processMessages cfg q ok).2, x ∈ q := by
  intro x hx
  unfold processMessages at hx
  split at hx
  · exact hx
  · split at hx
    · exact List.mem_of_mem_drop hx
    · exact hx

lemma runBatcher_delivered_valid (cfg : BatchConfig) (v : ValidationConfig) :
    ∀ (ops : List BatcherOp) (q : List Msg),
      (∀ x ∈ q, validateMessage v x = true) →
      ∀ b ∈ (runBatcher cfg v ops q).2, ∀ x ∈ b, validateMessage v x = true := by
  intro ops
  induction ops with
  | nil => intro q _ b hb; simp [runBatcher] at hb
  | cons op ops ih =>
    intro q hq b hb
    cases op with
    | add m =>
      exact ih (addMessage cfg v q m) (addMessage_valid_preserved cfg v q m hq) b hb
    | drain ok =>
      simp only [runBatcher, List.mem_cons] at hb
      rcases hb with hb | hb
      · intro x hx
        rw [hb] at hx
        exact hq x (processMessages_fst_subset cfg q ok x hx)
      · exact ih (processMessages cfg q ok).2
          (fun x hx => hq x (processMessages_snd_subset cfg q ok x hx)) b hb

/-- Fixture data for the concrete theorems below: permissive bounds, a
queue capacity of 2, and a capacity-0 configuration. -/
def sampleValidation : ValidationConfig :=
  { maxPrice := 10000, maxVolume := 1000000, maxSpread := 100
    minPrice := 0, minVolume := 0 }

def sampleBatch : BatchConfig := { maxBatchSize := 5, maxQueueSize := 2 }

def sampleBatchZero : BatchConfig := { maxBatchSize := 5, maxQueueSize := 0 }

/-- A trade passing every bound of `sampleValidation`. -/
def sampleTrade : Msg := .trade { symbol := "AAPL", price := 100, size := 10, timestamp := "t1" }

/-- A trade whose price violates `sampleValidation.maxPrice`. -/
def sampleBadTrade : Msg := .trade { symbol := "AAPL", price := 20000, size := 10, timestamp := "t2" }

/-- A bar inside every range bound whose `high` is strictly below its
`low` (and below `open`/`close`), so it violates both OHLC consistency
conditions. -/
def sampleBarBad : Bar :=
  { symbol := "AAPL", open_ := 10, high := 5, low := 8, close := 10
    volume := 100, timestamp := "t3" }

/-- C3, counterexample.  The claim says the queue length never exceeds
`maxQueueSize`.  With `maxQueueSize = 2`, adding three valid messages to
the empty queue leaves three entries: the overflow check runs before the
push and `slice(-2)` of a 2-element queue drops nothing, so the queue
passes its configured capacity by one. -/
theorem queue_exceeds_maxQueueSize :
    sampleBatch.maxQueueSize <
      (([sampleTrade, sampleTrade, sampleTrade]).foldl
        (addMessage sampleBatch sampleValidation) []).length := by
  decide

/-- C3, amended.  For `maxQueueSize ≥ 1` the queue length never exceeds
`maxQueueSize + 1`; adding a valid message to a queue already one over
capacity (`maxQueueSize + 1` entries) evicts exactly the single oldest
entry, while adding to a queue at exactly `maxQueueSize` entries evicts
none and lets it grow one over capacity. -/
theorem queue_overflow_evicts_one_at_saturation (cfg : BatchConfig) (v : ValidationConfig)
    (q : List Msg) (m : Msg) (msgs : List Msg)
    (h1 : 1 ≤ cfg.maxQueueSize) (hval : validateMessage v m = true) :
    (q.length = cfg.maxQueueSize + 1 → addMessage cfg v q m = q.drop 1 ++ [m]) ∧
    (q.length = cfg.maxQueueSize → addMessage cfg v q m = q ++ [m]) ∧
    (msgs.foldl (addMessage cfg v) []).length ≤ cfg.maxQueueSize + 1 := by
  refine ⟨?_, ?_, ?_⟩
  · intro hq
    unfold addMessage trimQueue
    rw [if_pos hval, if_pos (by omega), if_neg (by omega)]
    have : q.length - cfg.maxQueueSize = 1 := by omega
    rw [this]
  · intro hq
    unfold addMessage trimQueue
    rw [if_pos hval, if_pos (by omega), if_neg (by omega)]
    have : q.length - cfg.maxQueueSize = 0 := by omega
    rw [this, List.drop_zero]
  · exact foldl_addMessage_length_le cfg v h1 msgs [] (by simp)

/-- C3, witness for the amended theorem at a concrete saturated queue. -/
theorem queue_overflow_evicts_one_at_saturation_witness :
    ([sampleTrade, sampleBadTrade, sampleTrade].length = sampleBatch.maxQueueSize + 1 →
      addMessage sampleBatch sampleValidation [sampleTrade, sampleBadTrade, sampleTrade]
          sampleTrade =
        [sampleTrade, sampleBadTrade, sampleTrade].drop 1 ++ [sampleTrade]) ∧
    ([sampleTrade, sampleBadTrade, sampleTrade].length = sampleBatch.maxQueueSize →
      addMessage sampleBatch sampleValidation [sampleTrade, sampleBadTrade, sampleTrade]
          sampleTrade =
        [sampleTrade, sampleBadTrade, sampleTrade] ++ [sampleTrade]) ∧
    (([sampleTrade, sampleTrade, sampleTrade, sampleTrade]).foldl
        (addMessage sampleBatch sampleValidation) []).length ≤
      sampleBatch.maxQueueSize + 1 :=
  queue_overflow_evicts_one_at_saturation sampleBatch sampleValidation
    [sampleTrade, sampleBadTrade, sampleTrade] sampleTrade
    [sampleTrade, sampleTrade, sampleTrade, sampleTrade]
    (by decide) (by decide)

/-- C9, counterexample.  The implicit claim asserts the bound
`maxQueueSize + 1` for every configuration, on the reading that the
overflow check always trims to the last `maxQueueSize` entries.  With
`maxQueueSize = 0` the trim is `slice(-0)` = `slice(0)`, which keeps the
whole queue, so two valid adds already leave 2 > 0 + 1 entries and the
queue grows without bound. -/
theorem queue_unbounded_at_zero_maxQueueSize :
    sampleBatchZero.maxQueueSize + 1 <
      (([sampleTrade, sampleTrade]).foldl
        (addMessage sampleBatchZero sampleValidation) []).length := by
  decide

/-- C9, amended.  For every configuration with `maxQueueSize ≥ 1` and
every sequence of `addMessage` calls starting from the empty queue, the
queue length never exceeds `maxQueueSize + 1`. -/
theorem queue_length_le_maxQueueSize_succ (cfg : BatchConfig) (v : ValidationConfig)
    (h1 : 1 ≤ cfg.maxQueueSize) (msgs : List Msg) :
    (msgs.foldl (addMessage cfg v) []).length ≤ cfg.maxQueueSize + 1 :=
  foldl_addMessage_length_le cfg v h1 msgs [] (by simp)

/-- C9, witness at the capacity-2 configuration and five adds. -/
theorem queue_length_le_maxQueueSize_succ_witness :
    (([sampleTrade, sampleTrade, sampleTrade, sampleTrade, sampleTrade]).foldl
        (addMessage sampleBatch sampleValidation) []).length ≤
      sampleBatch.maxQueueSize + 1 :=
  queue_length_le_maxQueueSize_succ sampleBatch sampleValidation (by decide)
    [sampleTrade, sampleTrade, sampleTrade, sampleTrade, sampleTrade]

/-- C7.  A message failing any bound check is never pushed, so it never
occurs in any batch the batcher hands to the notifier sink, over every
sequence of add and drain (manual `processMessages` or periodic flush)
operations from the empty queue. -/
theorem invalid_message_never_delivered (cfg : BatchConfig) (v : ValidationConfig)
    (ops : List BatcherOp) (m : Msg) (hm : validateMessage v m = false) :
    ∀ b ∈ (runBatcher cfg v ops []).2, m ∉ b := by
  intro b hb hmem
  have := runBatcher_delivered_valid cfg v ops [] (by simp) b hb m hmem
  rw [hm] at this
  exact Bool.false_ne_true this

/-- C7, witness: the out-of-bounds trade is absent from the first batch
delivered after adding it, adding a valid trade, and draining. -/
theorem invalid_message_never_delivered_witness :
    sampleBadTrade ∉
      List.headI (runBatcher sampleBatch sampleValidation
        [.add sampleBadTrade, .add sampleTrade, .drain true] []).2 :=
  invalid_message_never_delivered sampleBatch sampleValidation
    [.add sampleBadTrade, .add sampleTrade, .drain true] sampleBadTrade
    (by decide) _ (by decide)

/-- C6, counterexample.  The claim says `addMessage` enforces the OHLC
consistency conditions on bars.  `sampleBarBad` has `high < low` (and
`high < open`, `high < close`), violating `high ≥ max(open, close, low)`
and `low ≤ min(open, close, high)`, yet `validateBar` accepts it and
`addMessage` queues it. -/
theorem ohlc_inconsistent_bar_accepted :
    validateBar sampleValidation sampleBarBad = true ∧
    sampleBarBad.high < max sampleBarBad.open_ (max sampleBarBad.close sampleBarBad.low) ∧
    addMessage sampleBatch sampleValidation [] (.bar sampleBarBad) = [.bar sampleBarBad] := by
  refine ⟨by decide, by decide, by decide⟩

/-- C6, amended.  Bar validation enforces only the min/max price range
on open/high/low/close and the volume range (plus truthy symbol and
timestamp); it checks no OHLC consistency condition, so every bar within
those ranges — whatever the order relations among open, high, low and
close — is accepted and queued. -/
theorem bar_validation_checks_ranges_only (cfg : BatchConfig) (v : ValidationConfig)
    (b : Bar) (q : List Msg)
    (hs : b.symbol ≠ "") (ht : b.timestamp ≠ "")
    (ho : v.minPrice ≤ b.open_ ∧ b.open_ ≤ v.maxPrice)
    (hh : v.minPrice ≤ b.high ∧ b.high ≤ v.maxPrice)
    (hl : v.minPrice ≤ b.low ∧ b.low ≤ v.maxPrice)
    (hc : v.minPrice ≤ b.close ∧ b.close ≤ v.maxPrice)
    (hv : v.minVolume ≤ b.volume ∧ b.volume ≤ v.maxVolume) :
    validateBar v b = true ∧ Msg.bar b ∈ addMessage cfg v q (.bar b) := by
  have hval : validateBar v b = true := by
    unfold validateBar
    rw [if_neg (by simp [hs, ht]), if_neg (by push_neg; exact ⟨ho.1, ho.2⟩),
      if_neg (by push_neg; exact ⟨hh.1, hh.2⟩), if_neg (by push_neg; exact ⟨hl.1, hl.2⟩),
      if_neg (by push_neg; exact ⟨hc.1, hc.2⟩), if_neg (by push_neg; exact ⟨hv.1, hv.2⟩)]
  refine ⟨hval, ?_⟩
  unfold addMessage
  rw [if_pos (show validateMessage v (.bar b) = true from hval)]
  simp

/-- C6, witness for the amended theorem at the OHLC-violating bar. -/
theorem bar_validation_checks_ranges_only_witness :
    validateBar sampleValidation sampleBarBad = true ∧
    Msg.bar sampleBarBad ∈ addMessage sampleBatch sampleValidation [sampleTrade] (.bar sampleBarBad) :=
  bar_validation_checks_ranges_only sampleBatch sampleValidation sampleBarBad [sampleTrade]
    (by decide) (by decide) (by decide) (by decide) (by decide) (by decide) (by decide)

/-! ## Reconnection coordinator lemmas and properties -/

lemma reconnectDelay_mono (cfg : ReconnectConfig) (hb : 0 ≤ cfg.reconnectDelay)
    {i j : ℕ} (hij : i ≤ j) :
    min (cfg.reconnectDelay * 2 ^ i) cfg.maxReconnectDelay ≤
      min (cfg.reconnectDelay * 2 ^ j) cfg.maxReconnectDelay := by
  apply min_le_min _ le_rfl
  exact mul_le_mul_of_nonneg_left (pow_le_pow_right₀ (by norm_num) hij) hb

lemma delaysOf_lb (cfg : ReconnectConfig) (hb : 0 ≤ cfg.reconnectDelay) :
    ∀ (n a : ℕ), ∀ d ∈ delaysOf (runReconnects cfg a n),
      min (cfg.reconnectDelay * 2 ^ (a + 1)) cfg.maxReconnectDelay ≤ d := by
  intro n
  induction n with
  | zero => intro a d hd; simp [runReconnects, delaysOf] at hd
  | succ n ih =>
    intro a d hd
    by_cases h : a < cfg.maxReconnectAttempts
    · simp only [runReconnects, scheduleReconnect, if_pos h, delaysOf,
        List.filterMap_cons] at hd
      rcases List.mem_cons.mp hd with hd | hd
      · exact hd ▸ le_rfl
      · exact le_trans (reconnectDelay_mono cfg hb (by omega)) (ih (a + 1) d hd)
    · simp only [runReconnects, scheduleReconnect, if_neg h, delaysOf,
        List.filterMap_cons] at hd
      exact ih a d hd

lemma delaysOf_pairwise (cfg : ReconnectConfig) (hb : 0 ≤ cfg.reconnectDelay) :
    ∀ (n a : ℕ), List.Pairwise (· ≤ ·) (delaysOf (runReconnects cfg a n)) := by
  intro n
  induction n with
  | zero => intro a; simp [runReconnects, delaysOf]
  | succ n ih =>
    intro a
    by_cases h : a < cfg.maxReconnectAttempts
    · simp only [runReconnects, scheduleReconnect, if_pos h, delaysOf,
        List.filterMap_cons]
      refine List.Pairwise.cons ?_ (ih (a + 1))
      intro d hd
      exact le_trans (reconnectDelay_mono cfg hb (by omega)) (delaysOf_lb cfg hb n (a + 1) d hd)
    · simp only [runReconnects, scheduleReconnect, if_neg h, delaysOf,
        List.filterMap_cons]
      exact ih a

lemma delaysOf_capped (cfg : ReconnectConfig) :
    ∀ (n a : ℕ), ∀ d ∈ delaysOf (runReconnects cfg a n), d ≤ cfg.maxReconnectDelay := by
  intro n
  induction n with
  | zero => intro a d hd; simp [runReconnects, delaysOf] at hd
  | succ n ih =>
    intro a d hd
    by_cases h : a < cfg.maxReconnectAttempts
    · simp only [runReconnects, scheduleReconnect, if_pos h, delaysOf,
        List.filterMap_cons] at hd
      rcases List.mem_cons.mp hd with hd | hd
      · exact hd ▸ min_le_right _ _
      · exact ih (a + 1) d hd
    · simp only [runReconnects, scheduleReconnect, if_neg h, delaysOf,
        List.filterMap_cons] at hd
      exact ih a d hd

lemma delaysOf_cons_scheduled (d : ℚ) (l : List ReconnectOutput) :
    delaysOf (.scheduled d :: l) = d :: delaysOf l := by
  simp [delaysOf]

lemma delaysOf_cons_gaveUp (l : List ReconnectOutput) :
    delaysOf (.gaveUp :: l) = delaysOf l := by
  simp [delaysOf]

lemma giveUpCount_cons_scheduled (d : ℚ) (l : List ReconnectOutput) :
    giveUpCount (.scheduled d :: l) = giveUpCount l := by
  simp [giveUpCount, List.filter_cons]

lemma giveUpCount_cons_gaveUp (l : List ReconnectOutput) :
    giveUpCount (.gaveUp :: l) = giveUpCount l + 1 := by
  simp [giveUpCount, List.filter_cons]

lemma delaysOf_length (cfg : ReconnectConfig) :
    ∀ (n a : ℕ), (delaysOf (runReconnects cfg a n)).length =
      min n (cfg.maxReconnectAttempts - a) := by
  intro n
  induction n with
  | zero => intro a; simp [runReconnects, delaysOf]
  | succ n ih =>
    intro a
    by_cases h : a < cfg.maxReconnectAttempts
    · simp only [runReconnects, scheduleReconnect, if_pos h]
      rw [delaysOf_cons_scheduled, List.length_cons, ih (a + 1)]
      omega
    · simp only [runReconnects, scheduleReconnect, if_neg h]
      rw [delaysOf_cons_gaveUp, ih a]
      omega

lemma giveUpCount_eq (cfg : ReconnectConfig) :
    ∀ (n a : ℕ), giveUpCount (runReconnects cfg a n) =
      n - (cfg.maxReconnectAttempts - a) := by
  intro n
  induction n with
  | zero => intro a; simp [runReconnects, giveUpCount]
  | succ n ih =>
    intro a
    by_cases h : a < cfg.maxReconnectAttempts
    · simp only [runReconnects, scheduleReconnect, if_pos h]
      rw [giveUpCount_cons_scheduled, ih (a + 1)]
      omega
    · simp only [runReconnects, scheduleReconnect, if_neg h]
      rw [giveUpCount_cons_gaveUp, ih a]
      omega

/-- C4, counterexample.  With `maxReconnectAttempts = 1` the second and
third consecutive events both run into the exhausted branch of
`scheduleReconnect`, and each of them emits `maxReconnectAttemptsReached`:
over three events the give-up signal fires twice, not exactly once. -/
theorem giveUp_fires_per_event :
    giveUpCount (runReconnects ⟨1, 100, 1000⟩ 0 3) = 2 ∧
    giveUpCount (runReconnects ⟨1, 100, 1000⟩ 0 3) ≠ 1 := by
  refine ⟨by decide, by decide⟩

/-- C4, amended.  For every configuration with a nonnegative base delay
and every number `n` of consecutive error/disconnect events with no
intervening successful connect: the scheduled delays form a monotonically
non-decreasing sequence, each capped at `maxReconnectDelay`; exactly
`min n maxReconnectAttempts` reconnects are scheduled (so none once the
attempt bound is reached); and the give-up signal fires once per event
beyond the bound — `n - maxReconnectAttempts` times in total — rather
than exactly once. -/
theorem reconnect_backoff_trace (cfg : ReconnectConfig)
    (hb : 0 ≤ cfg.reconnectDelay) (n : ℕ) :
    List.Pairwise (· ≤ ·) (delaysOf (runReconnects cfg 0 n)) ∧
    (∀ d ∈ delaysOf (runReconnects cfg 0 n), d ≤ cfg.maxReconnectDelay) ∧
    (delaysOf (runReconnects cfg 0 n)).length = min n cfg.maxReconnectAttempts ∧
    giveUpCount (runReconnects cfg 0 n) = n - cfg.maxReconnectAttempts := by
  refine ⟨delaysOf_pairwise cfg hb n 0, delaysOf_capped cfg n 0, ?_, ?_⟩
  · rw [delaysOf_length cfg n 0]; omega
  · rw [giveUpCount_eq cfg n 0]; omega

/-- C4, witness at a 3-attempt configuration driven by five events. -/
theorem reconnect_backoff_trace_witness :
    List.Pairwise (· ≤ ·) (delaysOf (runReconnects ⟨3, 100, 500⟩ 0 5)) ∧
    (∀ d ∈ delaysOf (runReconnects ⟨3, 100, 500⟩ 0 5), d ≤ (500 : ℚ)) ∧
    (delaysOf (runReconnects ⟨3, 100, 500⟩ 0 5)).length = min 5 3 ∧
    giveUpCount (runReconnects ⟨3, 100, 500⟩ 0 5) = 5 - 3 :=
  reconnect_backoff_trace ⟨3, 100, 500⟩ (by norm_num) 5

/-! ## Order monitor reconnect lemmas and properties -/

lemma monitorAttemptsAfter_eq :
    ∀ n, monitorAttemptsAfter n = min n monitorMaxReconnectAttempts := by
  intro n
  induction n with
  | zero => simp [monitorAttemptsAfter]
  | succ n ih =>
    unfold monitorAttemptsAfter monitorReconnect
    rw [ih]
    by_cases h : min n monitorMaxReconnectAttempts ≥ monitorMaxReconnectAttempts
    · rw [if_pos h]
      show min n monitorMaxReconnectAttempts = min (n + 1) monitorMaxReconnectAttempts
      omega
    · rw [if_neg h]
      show min n monitorMaxReconnectAttempts + 1 = min (n + 1) monitorMaxReconnectAttempts
      omega

/-- C8, amended.  `OrderMonitor.reconnect` is bounded exponential
backoff, but with growth factor 1.5 and no cap: the delay scheduled on
the `i`-th (0-based) consecutive close event is
`reconnectInterval * 1.5^i` for `i < 10`, and from the tenth failure on
no reconnect is scheduled at all.  This is not the coordinator's
`min(baseDelay * 2^attempt, maxDelay)` sequence (see the
counterexample). -/
theorem monitor_reconnect_delay_sequence (i : ℕ) :
    (i < monitorMaxReconnectAttempts →
      monitorDelayAt i = some (monitorReconnectInterval * (3 / 2 : ℚ) ^ i)) ∧
    (monitorMaxReconnectAttempts ≤ i → monitorDelayAt i = none) := by
  constructor
  · intro h
    unfold monitorDelayAt
    rw [monitorAttemptsAfter_eq, min_eq_left (le_of_lt h)]
    unfold monitorReconnect
    rw [if_neg (by omega)]
    show some (monitorReconnectInterval * (3 / 2 : ℚ) ^ (i + 1 - 1)) = _
    rw [Nat.add_sub_cancel]
  · intro h
    unfold monitorDelayAt
    rw [monitorAttemptsAfter_eq, min_eq_right h]
    unfold monitorReconnect
    rw [if_pos le_rfl]

/-- C8, witness: the fourth event's delay is `1000 * 1.5^3`, and after
ten failures nothing further is scheduled. -/
theorem monitor_reconnect_delay_sequence_witness :
    monitorDelayAt 3 = some (monitorReconnectInterval * (3 / 2 : ℚ) ^ 3) ∧
    monitorDelayAt 12 = none :=
  ⟨(monitor_reconnect_delay_sequence 3).1 (by norm_num [monitorMaxReconnectAttempts]),
   (monitor_reconnect_delay_sequence 12).2 (by norm_num [monitorMaxReconnectAttempts])⟩

/-- C8, counterexample.  There is no cap `maxD` making the monitor's
delay sequence equal the coordinator's `min(base * 2^attempt, maxD)`
sequence run with the monitor's own base delay (1000 ms) and attempt
bound (10): the first event forces `maxD = 1000` (monitor waits 1000,
coordinator `min(2000, maxD)`), and the second event then mismatches
(monitor waits 1500, coordinator 1000). -/
theorem monitor_delay_not_coordinator_formula :
    ¬ ∃ maxD : ℚ, ∀ i : ℕ,
      monitorDelayAt i =
        coordDelayAt ⟨monitorMaxReconnectAttempts, monitorReconnectInterval, maxD⟩ i := by
  rintro ⟨maxD, h⟩
  have h0 := h 0
  have h1 := h 1
  have e0 : monitorDelayAt 0 = some 1000 := by
    simp [monitorDelayAt, monitorAttemptsAfter, monitorReconnect,
      monitorMaxReconnectAttempts, monitorReconnectInterval]
  have e1 : monitorDelayAt 1 = some 1500 := by
    simp [monitorDelayAt, monitorAttemptsAfter, monitorReconnect,
      monitorMaxReconnectAttempts, monitorReconnectInterval]
    norm_num
  have c0 : coordDelayAt ⟨monitorMaxReconnectAttempts, monitorReconnectInterval, maxD⟩ 0 =
      some (min 2000 maxD) := by
    simp [coordDelayAt, coordAttemptsAfter, scheduleReconnect,
      monitorMaxReconnectAttempts, monitorReconnectInterval]
    norm_num
  have c1 : coordDelayAt ⟨monitorMaxReconnectAttempts, monitorReconnectInterval, maxD⟩ 1 =
      some (min 4000 maxD) := by
    simp [coordDelayAt, coordAttemptsAfter, scheduleReconnect,
      monitorMaxReconnectAttempts, monitorReconnectInterval]
    norm_num
  rw [e0, c0, Option.some_inj] at h0
  rw [e1, c1, Option.some_inj] at h1
  have hm : maxD = 1000 := by
    rcases min_eq_iff.mp h0.symm with ⟨hc, _⟩ | ⟨hc, _⟩
    · norm_num at hc
    · exact hc
  rw [hm] at h1
  rw [min_eq_right (by norm_num)] at h1
  norm_num at h1

/-! ## Order validator lemmas and properties -/

lemma mem_if_singleton {p : Prop} [Decidable p] {s t : String} :
    (s ∈ if p then [t] else []) ↔ p ∧ s = t := by
  split <;> simp_all

lemma mem_if_if_singleton {p q : Prop} [Decidable p] [Decidable q] {s t u : String} :
    (s ∈ if p then [t] else if q then [u] else []) ↔
      (p ∧ s = t) ∨ (¬p ∧ q ∧ s = u) := by
  by_cases hp : p
  · simp [hp]
  · by_cases hq : q <;> simp [hp, hq]

lemma validateOrder_structural (env : ValidationEnv) (o : ExecutorOrderRequest)
    (h : structuralErrors o ≠ []) :
    validateOrder env o = ⟨false, structuralErrors o⟩ := by
  unfold validateOrder
  rw [if_pos (List.length_pos.mpr h)]

/-- Every error path of `validateOrder` past the structural phase
returns a single message starting with `'A'`, `'I'` or `'V'`. -/
lemma validateOrder_errors_head (env : ValidationEnv) (o : ExecutorOrderRequest) :
    (validateOrder env o).errors = structuralErrors o ∨
    ∀ s ∈ (validateOrder env o).errors,
      s.data.head? = some 'A' ∨ s.data.head? = some 'I' ∨ s.data.head? = some 'V' := by
  unfold validateOrder
  by_cases h1 : 0 < (structuralErrors o).length
  · rw [if_pos h1]; left; rfl
  · rw [if_neg h1]
    right
    by_cases h2 : env.account.status ≠ "ACTIVE"
    · rw [if_pos h2]
      intro s hs
      rw [List.mem_singleton.mp hs]
      left; rfl
    · rw [if_neg h2]
      by_cases h3 : o.side = some .buy ∧ orderValue env o > env.account.buying_power
      · rw [if_pos h3]
        intro s hs
        rw [List.mem_singleton.mp hs]
        right; left; rfl
      · rw [if_neg h3]
        cases env.post with
        | accepted => intro s hs; simp at hs
        | authFailed =>
          intro s hs
          rw [List.mem_singleton.mp hs]
          left; rfl
        | rejected msg =>
          intro s hs
          rw [List.mem_singleton.mp hs]
          right; right; rfl
        | errored =>
          intro s hs
          rw [List.mem_singleton.mp hs]
          right; right; rfl

lemma mem_structuralErrors_both (o : ExecutorOrderRequest) :
    "Cannot specify both quantity and notional" ∈ structuralErrors o ↔
      numTruthy o.qty = true ∧ numTruthy o.notional = true := by
  simp [structuralErrors, List.mem_append, mem_if_singleton, mem_if_if_singleton]

lemma mem_structuralErrors_either (o : ExecutorOrderRequest) :
    "Either quantity or notional must be specified" ∈ structuralErrors o ↔
      numTruthy o.qty = false ∧ numTruthy o.notional = false := by
  by_cases hq : numTruthy o.qty = true <;> by_cases hn : numTruthy o.notional = true <;>
    simp [structuralErrors, mem_if_singleton, mem_if_if_singleton, hq, hn]

/-- An environment with an active, well-funded account, an ask of 100,
and a brokerage that accepts the validating POST. -/
def sampleEnv : ValidationEnv :=
  { account := { status := "ACTIVE", buying_power := 10000 }
    currentPrice := 100
    post := .accepted }

/-- A structurally valid notional market buy. -/
def sampleRequest : ExecutorOrderRequest :=
  { symbol := "AAPL", qty := none, notional := some 100, side := some .buy
    type := some .market, time_in_force := some .day, limit_price := none
    stop_price := none, extended_hours := false, client_order_id := none
    order_class := none, take_profit := none, stop_loss := none }

/-- `sampleRequest` with `qty` additionally set — to `0`. -/
def sampleBothZeroQty : ExecutorOrderRequest := { sampleRequest with qty := some 0 }

/-- C5, counterexample.  The claim says every request with both `qty`
and `notional` set is rejected with the "not both" error.
`sampleBothZeroQty` has both set (`qty = 0`, `notional = 100`), yet the
truthiness test `order.qty && order.notional` skips the check and the
order validates cleanly. -/
theorem zero_qty_and_notional_accepted :
    validateOrder sampleEnv sampleBothZeroQty = ⟨true, []⟩ := by
  decide

/-- C5, amended.  The presence tests are truthiness tests, so "set"
must be read as "set to a truthy (nonzero) value": every request with
both `qty` and `notional` truthy is rejected with the "not both" error,
and every request with neither truthy is rejected with the "either"
error. -/
theorem qty_notional_exclusion (env : ValidationEnv) (o : ExecutorOrderRequest) :
    (numTruthy o.qty = true → numTruthy o.notional = true →
      (validateOrder env o).valid = false ∧
      "Cannot specify both quantity and notional" ∈ (validateOrder env o).errors) ∧
    (numTruthy o.qty = false → numTruthy o.notional = false →
      (validateOrder env o).valid = false ∧
      "Either quantity or notional must be specified" ∈ (validateOrder env o).errors) := by
  constructor
  · intro hq hn
    have hmem : "Cannot specify both quantity and notional" ∈ structuralErrors o :=
      (mem_structuralErrors_both o).mpr ⟨hq, hn⟩
    rw [validateOrder_structural env o (List.ne_nil_of_mem hmem)]
    exact ⟨rfl, hmem⟩
  · intro hq hn
    have hmem : "Either quantity or notional must be specified" ∈ structuralErrors o :=
      (mem_structuralErrors_either o).mpr ⟨hq, hn⟩
    rw [validateOrder_structural env o (List.ne_nil_of_mem hmem)]
    exact ⟨rfl, hmem⟩

/-- C5, witness for the amended theorem: a request with `qty = 2` and
`notional = 100`, and one with neither field. -/
theorem qty_notional_exclusion_witness :
    ((validateOrder sampleEnv { sampleRequest with qty := some 2 }).valid = false ∧
      "Cannot specify both quantity and notional" ∈
        (validateOrder sampleEnv { sampleRequest with qty := some 2 }).errors) ∧
    ((validateOrder sampleEnv { sampleRequest with notional := none }).valid = false ∧
      "Either quantity or notional must be specified" ∈
        (validateOrder sampleEnv { sampleRequest with notional := none }).errors) :=
  ⟨(qty_notional_exclusion sampleEnv { sampleRequest with qty := some 2 }).1
      (by decide) (by decide),
   (qty_notional_exclusion sampleEnv { sampleRequest with notional := none }).2
      (by decide) (by decide)⟩

/-- C10.  Zero is falsy: with `qty = 0` and a positive `notional`, the
"not both" error is not raised (on any path of `validateOrder`), while
with `qty = 0` and `notional` unset the "either" error is raised even
though `qty` is present. -/
theorem zero_qty_treated_as_absent (env : ValidationEnv) (o : ExecutorOrderRequest) (n : ℚ) :
    (o.qty = some 0 → o.notional = some n → 0 < n →
      "Cannot specify both quantity and notional" ∉ (validateOrder env o).errors) ∧
    (o.qty = some 0 → o.notional = none →
      (validateOrder env o).valid = false ∧
      "Either quantity or notional must be specified" ∈ (validateOrder env o).errors) := by
  constructor
  · intro hq _ _ hmem
    have hqf : numTruthy o.qty = false := by simp [hq, numTruthy]
    rcases validateOrder_errors_head env o with hcase | hcase
    · rw [hcase] at hmem
      have hboth := (mem_structuralErrors_both o).mp hmem
      rw [hqf] at hboth
      exact Bool.false_ne_true hboth.1
    · have hh := hcase _ hmem
      rcases hh with h | h | h <;> exact absurd h (by decide)
  · intro hq hn
    have hqf : numTruthy o.qty = false := by simp [hq, numTruthy]
    have hnf : numTruthy o.notional = false := by simp [hn, numTruthy]
    have hmem : "Either quantity or notional must be specified" ∈ structuralErrors o :=
      (mem_structuralErrors_either o).mpr ⟨hqf, hnf⟩
    rw [validateOrder_structural env o (List.ne_nil_of_mem hmem)]
    exact ⟨rfl, hmem⟩

/-- C10, witness: `qty = 0` with `notional = 100`, and `qty = 0` with no
`notional`. -/
theorem zero_qty_treated_as_absent_witness :
    ("Cannot specify both quantity and notional" ∉
      (validateOrder sampleEnv sampleBothZeroQty).errors) ∧
    ((validateOrder sampleEnv { sampleRequest with qty := some 0, notional := none }).valid =
        false ∧
      "Either quantity or notional must be specified" ∈
        (validateOrder sampleEnv
          { sampleRequest with qty := some 0, notional := none }).errors) :=
  ⟨(zero_qty_treated_as_absent sampleEnv sampleBothZeroQty 100).1
      (by decide) (by decide) (by decide),
   (zero_qty_treated_as_absent sampleEnv
      { sampleRequest with qty := some 0, notional := none } 100).2
      (by decide) (by decide)⟩

/-! ## Executor properties -/

/-- C1.  For every order that validates but whose submission fails on
each attempt, the executor's retry loop stops after exactly three
submission attempts: the settled record has status `failed` and
`execution_attempts = 3`, and `OrderSubmitter.submitOrder` was called
exactly three times — `processOrder` increments the counter once per
attempt before submitting, and `handleOrderFailed` re-enqueues (with
status `retrying`) only while the counter is below 3. -/
theorem submission_retries_exhaust_at_three (env : ValidationEnv) (req : ExecutorOrderRequest)
    (errMsg id cid : String) (fuel : ℕ)
    (hvalid : (validateOrder env req).valid = true) (hfuel : 3 ≤ fuel) :
    (driveQueue env errMsg (initialRecord id cid req) fuel).1.status = .failed ∧
    (driveQueue env errMsg (initialRecord id cid req) fuel).1.execution_attempts = 3 ∧
    (driveQueue env errMsg (initialRecord id cid req) fuel).2 = 3 := by
  obtain ⟨k, rfl⟩ : ∃ k, fuel = k + 3 := ⟨fuel - 3, by omega⟩
  simp [driveQueue, processOrderPass, handleOrderFailed, initialRecord, hvalid]

/-- C1, witness: a valid notional market buy whose submission always
fails, driven for exactly three ticks. -/
theorem submission_retries_exhaust_at_three_witness :
    (driveQueue sampleEnv "Request failed" (initialRecord "id-1" "coid-1" sampleRequest)
        3).1.status = .failed ∧
    (driveQueue sampleEnv "Request failed" (initialRecord "id-1" "coid-1" sampleRequest)
        3).1.execution_attempts = 3 ∧
    (driveQueue sampleEnv "Request failed" (initialRecord "id-1" "coid-1" sampleRequest)
        3).2 = 3 :=
  submission_retries_exhaust_at_three sampleEnv sampleRequest "Request failed" "id-1" "coid-1"
    3 (by decide) (by norm_num)

/-- C2.  A structurally valid buy order on an active account whose
estimated value (`notional`, or `qty` times the current ask) strictly
exceeds the reported buying power settles directly to `failed` in its
processing pass: the submitter is never called, the order is not
re-enqueued, no attempt is counted, and the recorded error contains
"Insufficient buying power". -/
theorem insufficient_buying_power_settles_failed (env : ValidationEnv)
    (req : ExecutorOrderRequest) (id cid : String) (submit : SubmitOutcome)
    (hstruct : structuralErrors req = [])
    (hactive : env.account.status = "ACTIVE")
    (hbuy : req.side = some .buy)
    (hover : orderValue env req > env.account.buying_power) :
    (processOrderPass env submit (initialRecord id cid req)).record.status = .failed ∧
    (processOrderPass env submit (initialRecord id cid req)).submitterCalled = false ∧
    (processOrderPass env submit (initialRecord id cid req)).requeued = false ∧
    (processOrderPass env submit (initialRecord id cid req)).record.execution_attempts = 0 ∧
    ∃ pre post,
      (processOrderPass env submit (initialRecord id cid req)).record.last_error =
        some (pre ++ ("Insufficient buying power" ++ post)) := by
  have hvr : validateOrder env req =
      ⟨false, [insufficientMessage (orderValue env req) env.account.buying_power]⟩ := by
    unfold validateOrder
    rw [hstruct]
    rw [if_neg (by simp)]
    rw [if_neg (by simp [hactive])]
    rw [if_pos ⟨hbuy, hover⟩]
  refine ⟨?_, ?_, ?_, ?_, ?_⟩ <;>
    simp [processOrderPass, initialRecord, hvr, validationFailureMessage]
  refine ⟨"Validation failed: ",
    ". Required: $" ++ toFixed2 (orderValue env req) ++ ", Available: $" ++
      toFixed2 env.account.buying_power, ?_⟩
  rfl

/-- An active account with only $100 of buying power. -/
def samplePoorEnv : ValidationEnv :=
  { account := { status := "ACTIVE", buying_power := 100 }
    currentPrice := 50
    post := .accepted }

/-- C2, witness: a $150 notional buy against $100 of buying power. -/
theorem insufficient_buying_power_settles_failed_witness :
    (processOrderPass samplePoorEnv (.accepted "b1")
        (initialRecord "id-2" "coid-2" { sampleRequest with notional := some 150 })).record.status =
      .failed ∧
    (processOrderPass samplePoorEnv (.accepted "b1")
        (initialRecord "id-2" "coid-2"
          { sampleRequest with notional := some 150 })).submitterCalled = false ∧
    (processOrderPass samplePoorEnv (.accepted "b1")
        (initialRecord "id-2" "coid-2" { sampleRequest with notional := some 150 })).requeued =
      false ∧
    (processOrderPass samplePoorEnv (.accepted "b1")
        (initialRecord "id-2" "coid-2"
          { sampleRequest with notional := some 150 })).record.execution_attempts = 0 ∧
    ∃ pre post,
      (processOrderPass samplePoorEnv (.accepted "b1")
          (initialRecord "id-2" "coid-2"
            { sampleRequest with notional := some 150 })).record.last_error =
        some (pre ++ ("Insufficient buying power" ++ post)) :=
  insufficient_buying_power_settles_failed samplePoorEnv
    { sampleRequest with notional := some 150 } "id-2" "coid-2" (.accepted "b1")
    (by decide) rfl rfl (by decide)

end TradeSync
